import Mathlib

/-!
Shallow embedding of `brainglobe_atlasapi/core.py` (the `Atlas` facade and the
`AdditionalRefDict` lazy reference store), together with a model of the
structure-catalog lookup used by it.

Modelling conventions:
* numpy volumes are a shape tag plus a total value function on index triples;
  whole-array operations (`np.zeros`, `np.full`, `np.isin`, boolean-mask
  assignment, slice assignment) are embedded pointwise;
* numpy single-voxel indexing with possibly negative integer indices follows
  numpy semantics: an index `i` with `-n <= i < 0` wraps to `i + n`, anything
  outside `[-n, n)` is an `IndexError`;
* Python `int()` on a float is truncation toward zero; floats are modelled as
  exact rationals; a numpy integer scalar read from a volume carries the
  volume dtype, and scalar arithmetic on it wraps into that dtype
  (`np.uint8(0) - 1 = 255`), modelled by `npSub`;
* Python exceptions are modelled with `Except AtlasError`;
* Python list indexing (`xs[i]`) allows negative indices wrapping from the
  end, and raises `IndexError` outside `[-len, len)`.
-/

/-- Error kinds corresponding to the Python exceptions that `core.py` can
raise or catch: `KeyError` (unknown structure key / missing metadata key),
`IndexError` (bad list or array index), `ValueError` (invalid hemisphere
argument in `get_structure_mask`). -/
inductive AtlasError where
  | keyError
  | indexError
  | valueError
  deriving Repr, DecidableEq

/-- One record of the structures list: the fields of a structure entry that
`core.py` reads (`id`, `acronym`, `name`, `structure_id_path`). -/
structure StructureRecord where
  id : Int
  acronym : String
  name : String
  structure_id_path : List Int
  deriving Repr, DecidableEq

/-- A key accepted by the dual-key structure lookup: numeric id or acronym. -/
inductive StructKey where
  | id : Int → StructKey
  | acr : String → StructKey
  deriving Repr, DecidableEq

/-- A numpy volume: its shape and its value at every index triple. -/
structure Volume where
  shape : Nat × Nat × Nat
  data : Nat × Nat × Nat → Int

/-- Left hemisphere label (`LEFT_HEMI_VAL` in `core.py`). -/
def LEFT_HEMI_VAL : Int := 1

/-- Right hemisphere label (`RIGHT_HEMI_VAL` in `core.py`). -/
def RIGHT_HEMI_VAL : Int := 2

/-- Python `int()` applied to a (rational-valued) float: truncation toward 0. -/
def pyInt (q : ℚ) : Int := if 0 ≤ q then ⌊q⌋ else ⌈q⌉

/-- Python list indexing `xs[i]`: non-negative indices are positions from the
front, indices in `[-len, -1]` wrap from the end, everything else raises
`IndexError`. -/
def pyListGet {α : Type} [Inhabited α] (l : List α) (i : Int) : Except AtlasError α :=
  if 0 ≤ i ∧ i < (l.length : Int) then .ok (l.getD i.toNat default)
  else if -(l.length : Int) ≤ i ∧ i < 0 then .ok (l.getD (i + l.length).toNat default)
  else .error .indexError

/-- Whether integer index `i` is acceptable for a numpy axis of length `n`
(numpy wraps negative indices in `[-n, -1]`). -/
def inRangeAx (n : Nat) (i : Int) : Bool := decide (-(n : Int) ≤ i) && decide (i < (n : Int))

/-- Resolve a (possibly negative) numpy axis index to the actual position. -/
def wrapAx (n : Nat) (i : Int) : Nat := if i < 0 then (i + (n : Int)).toNat else i.toNat

/-- Resolve a numpy index triple componentwise. -/
def wrapIdx (shape : Nat × Nat × Nat) (idx : Int × Int × Int) : Nat × Nat × Nat :=
  (wrapAx shape.1 idx.1, wrapAx shape.2.1 idx.2.1, wrapAx shape.2.2 idx.2.2)

/-- Single-voxel numpy indexing `vol[idx]` with an integer triple: wraps
negative in-range indices, raises `IndexError` outside `[-n, n)` per axis. -/
def npGet (vol : Volume) (idx : Int × Int × Int) : Except AtlasError Int :=
  if inRangeAx vol.shape.1 idx.1 && inRangeAx vol.shape.2.1 idx.2.1
      && inRangeAx vol.shape.2.2 idx.2.2 then
    .ok (vol.data (wrapIdx vol.shape idx))
  else .error .indexError

/-- An integer numpy dtype as far as scalar arithmetic is concerned: its
width in bits and its signedness. -/
structure NpDtype where
  bits : Nat
  signed : Bool
  deriving Repr, DecidableEq

/-- numpy scalar subtraction `x - y`, where `x` was read from a volume of
dtype `dt` and `y` is a small Python int: the result is taken in `dt`, so an
unsigned dtype wraps modulo `2 ^ bits` (`np.uint8(0) - 1 = 255`) and a signed
dtype wraps into `[-2 ^ (bits - 1), 2 ^ (bits - 1))`. -/
def npSub (dt : NpDtype) (x y : Int) : Int :=
  if dt.signed then
    (x - y + 2 ^ (dt.bits - 1)) % 2 ^ dt.bits - 2 ^ (dt.bits - 1)
  else
    (x - y) % 2 ^ dt.bits

/-- `np.zeros(shape, dtype)`. -/
def np_zeros (shape : Nat × Nat × Nat) : Volume := ⟨shape, fun _ => 0⟩

/-- `np.full(shape, x, dtype)`. -/
def np_full (shape : Nat × Nat × Nat) (x : Int) : Volume := ⟨shape, fun _ => x⟩

/-- `np.isin(vol, ids)` as the pointwise boolean condition it denotes. -/
def np_isin (vol : Volume) (ids : List Int) : Nat × Nat × Nat → Bool :=
  fun v => decide (vol.data v ∈ ids)

/-- Boolean-mask assignment `m[cond] = x`, pointwise. -/
def mask_assign (m : Volume) (cond : Nat × Nat × Nat → Bool) (x : Int) : Volume :=
  ⟨m.shape, fun v => if cond v then x else m.data v⟩

/-- Component of an index (or shape) triple along a given axis. -/
def axisOf (v : Nat × Nat × Nat) : Fin 3 → Nat
  | ⟨0, _⟩ => v.1
  | ⟨1, _⟩ => v.2.1
  | ⟨2, _⟩ => v.2.2

/-- Slice assignment `m[tuple(slices)] = x` where `slices[ax] = slice(start,
None)` and the other axes are full slices: every voxel whose `ax`-component is
`>= start` receives `x`. -/
def slice_assign_from (m : Volume) (ax : Fin 3) (start : Nat) (x : Int) : Volume :=
  ⟨m.shape, fun v => if start ≤ axisOf v ax then x else m.data v⟩

/-- Modelled from the spec: the id half of the dual-key lookup of
`StructuresDict` (defined in `structure_class.py`, which is not part of the
source under review) — an id resolves to the unique record carrying it. -/
def lookupId (cat : List StructureRecord) (i : Int) : Option StructureRecord :=
  cat.find? (fun r => r.id == i)

/-- Modelled from the spec: the acronym half of the dual-key lookup of
`StructuresDict` — an acronym resolves through the acronym-to-id map to the
unique record carrying it. -/
def lookupAcr (cat : List StructureRecord) (a : String) : Option StructureRecord :=
  cat.find? (fun r => r.acronym == a)

/-- Modelled from the spec: `StructuresDict.__getitem__`, accepting either an
id or an acronym and raising `KeyError` for keys matching neither. -/
def getStructure (cat : List StructureRecord) : StructKey → Except AtlasError StructureRecord
  | .id i => match lookupId cat i with
    | some r => .ok r
    | none => .error .keyError
  | .acr a => match lookupAcr cat a with
    | some r => .ok r
    | none => .error .keyError

/-- Modelled from the spec: the key set iterated by
`self.structures.keys()` — the ids of all records, in list order. -/
def structureKeys (cat : List StructureRecord) : List Int := cat.map (fun r => r.id)

/-- `self.structures[k]["acronym"]` for a single key. -/
def getAcronym (cat : List StructureRecord) (k : StructKey) : Except AtlasError String :=
  (getStructure cat k).map (fun r => r.acronym)

/-- `self.structures[k]["structure_id_path"]` for a single key. -/
def getPath (cat : List StructureRecord) (k : StructKey) : Except AtlasError (List Int) :=
  (getStructure cat k).map (fun r => r.structure_id_path)

/-- The list-comprehension branch of `_get_from_structure` specialised to the
`"acronym"` field over a list of ids (left to right, first failure raises). -/
def getAcronyms (cat : List StructureRecord) : List Int → Except AtlasError (List String)
  | [] => .ok []
  | i :: rest => do
    let a ← getAcronym cat (.id i)
    let as ← getAcronyms cat rest
    pure (a :: as)

/-- `[self.structures[descendant]["id"] for descendant in descendants]`:
resolve a list of acronym keys to ids, left to right. -/
def getIds (cat : List StructureRecord) : List String → Except AtlasError (List Int)
  | [] => .ok []
  | a :: rest => do
    let r ← getStructure cat (.acr a)
    let ids ← getIds cat rest
    pure (r.id :: ids)

/-- `Atlas.get_structure_ancestors`: the acronyms of all ids on the key's
`structure_id_path` except the last (`[:-1]`), in path order. -/
def get_structure_ancestors (cat : List StructureRecord) (k : StructKey) :
    Except AtlasError (List String) := do
  let p ← getPath cat k
  getAcronyms cat p.dropLast

/-- The `for struc in self.structures.keys():` loop body of
`Atlas.get_structure_descendants`: for each key, if the given acronym appears
among its ancestors, append that key's acronym. -/
def descendantsLoop (cat : List StructureRecord) (acr : String) :
    List Int → Except AtlasError (List String)
  | [] => .ok []
  | k :: rest => do
    let anc ← get_structure_ancestors cat (.id k)
    if acr ∈ anc then
      let a ← getAcronym cat (.id k)
      let ds ← descendantsLoop cat acr rest
      pure (a :: ds)
    else
      descendantsLoop cat acr rest

/-- `Atlas.get_structure_descendants`: resolve the key to its acronym, then
scan every structure and collect those that have it among their ancestors. -/
def get_structure_descendants (cat : List StructureRecord) (k : StructKey) :
    Except AtlasError (List String) := do
  let acr ← getAcronym cat k
  descendantsLoop cat acr (structureKeys cat)

/-- The state of an `Atlas` as far as `core.py`'s coordinate, hierarchy and
mask operations read it: the structures list handed to the catalog, the
annotation and (file-backed) hemispheres volumes, and the metadata fields
`shape`, `resolution` and `symmetric`, plus the index of the frontal axis as
computed by the external `AnatomicalSpace` collaborator
(`self.space.axes_order.index("frontal")`); `hemispheres_file_dtype` is the
integer dtype the hemispheres TIFF happens to carry (the synthesized volume
is always `np.uint8`, see `Atlas.hemispheres_dtype`). -/
structure Atlas where
  structures_list : List StructureRecord
  annot : Volume
  hemispheres_file : Volume
  hemispheres_file_dtype : NpDtype
  shape : Nat × Nat × Nat
  resolution : ℚ × ℚ × ℚ
  symmetric : Bool
  front_ax_idx : Fin 3

/-- The symmetric branch of the `Atlas.hemispheres` property: fill the full
shape with 2, then assign 1 to the slice `slice(shape[front]//2 + 1, None)`
along the frontal axis. -/
def hemispheres_symmetric (shape : Nat × Nat × Nat) (front : Fin 3) : Volume :=
  slice_assign_from (np_full shape 2) front (axisOf shape front / 2 + 1) 1

/-- The `Atlas.hemispheres` property: synthesized when the metadata says
`symmetric`, otherwise read from the hemispheres file. -/
def Atlas.hemispheres (a : Atlas) : Volume :=
  if a.symmetric then hemispheres_symmetric a.shape a.front_ax_idx else a.hemispheres_file

/-- The dtype of the `Atlas.hemispheres` volume: the synthesized symmetric
volume is created with `dtype=np.uint8` (`core.py` line 135), the loaded one
carries the dtype of its file. -/
def Atlas.hemispheres_dtype (a : Atlas) : NpDtype :=
  if a.symmetric then ⟨8, false⟩ else a.hemispheres_file_dtype

/-- `Atlas._idx_from_coords`: if `microns`, divide each coordinate by the
axis resolution; then truncate each coordinate with `int()`. -/
def Atlas.idx_from_coords (a : Atlas) (coords : ℚ × ℚ × ℚ) (microns : Bool) :
    Int × Int × Int :=
  let c := if microns then
      (coords.1 / a.resolution.1, coords.2.1 / a.resolution.2.1, coords.2.2 / a.resolution.2.2)
    else coords
  (pyInt c.1, pyInt c.2.1, pyInt c.2.2)

/-- `Atlas.hemisphere_from_coords`: read the hemispheres volume at the
resolved voxel index; with `as_string`, index `["left", "right"]` at
`hem - 1`, where `hem` is a numpy scalar of the volume dtype so the
subtraction wraps in that dtype. -/
def Atlas.hemisphere_from_coords (a : Atlas) (coords : ℚ × ℚ × ℚ)
    (microns : Bool) (as_string : Bool) : Except AtlasError (Sum Int String) := do
  let hem ← npGet a.hemispheres (a.idx_from_coords coords microns)
  if as_string then do
    let s ← pyListGet ["left", "right"] (npSub a.hemispheres_dtype hem 1)
    pure (.inr s)
  else
    pure (.inl hem)

/-- `Atlas.structure_from_coords`: read the annotation at the resolved voxel
index; if `hierarchy_lev` is given, replace the id with
`structures[rid]["structure_id_path"][hierarchy_lev]` (this lookup is outside
any try block); if `as_acronym`, resolve the id inside a try block that turns
`KeyError` into `key_error_string`. -/
def Atlas.structure_from_coords (a : Atlas) (coords : ℚ × ℚ × ℚ) (microns : Bool)
    (as_acronym : Bool) (hierarchy_lev : Option Int) (key_error_string : String) :
    Except AtlasError (Sum Int String) := do
  let rid0 ← npGet a.annot (a.idx_from_coords coords microns)
  let rid ← match hierarchy_lev with
    | none => pure rid0
    | some lev => do
      let r ← getStructure a.structures_list (.id rid0)
      pyListGet r.structure_id_path lev
  if as_acronym then
    match getStructure a.structures_list (.id rid) with
    | .ok d => pure (.inr d.acronym)
    | .error .keyError => pure (.inr key_error_string)
    | .error e => .error e
  else
    pure (.inl rid)

/-- `Atlas.get_structure_mask`: resolve the structure id, collect descendant
ids plus the structure's own id, build a zero volume of the atlas shape and
assign the structure id where the annotation value is in that id list; then
apply the hemisphere filter, raising `ValueError` for arguments outside
`{-1, 0, 1}` (the check happens only after the mask is computed, and only
when the argument is nonzero). -/
def Atlas.get_structure_mask (a : Atlas) (k : StructKey) (hemisphere : Int) :
    Except AtlasError Volume := do
  let s ← getStructure a.structures_list k
  let descendants ← get_structure_descendants a.structures_list k
  let descendant_ids ← getIds a.structures_list descendants
  let mask_stack :=
    mask_assign (np_zeros a.shape) (np_isin a.annot (descendant_ids ++ [s.id])) s.id
  if hemisphere = 0 then
    pure mask_stack
  else if hemisphere = -1 then
    pure (mask_assign mask_stack (fun v => a.hemispheres.data v == RIGHT_HEMI_VAL) 0)
  else if hemisphere = 1 then
    pure (mask_assign mask_stack (fun v => a.hemispheres.data v == LEFT_HEMI_VAL) 0)
  else
    .error .valueError

/-- The atlas metadata as read by `Atlas.__init__` for the additional
references: the `additional_references` key may be absent (`none`), in which
case reading it raises `KeyError`. -/
structure Metadata where
  additional_references : Option (List String)

/-- The state of an `AdditionalRefDict`: the allow-list handed to the
constructor and the cached backing data (an association list, since
`UserDict` starts empty and is only extended by `__getitem__`). -/
structure RefStore where
  references_list : List String
  data : List (String × Volume)

/-- Outcome of one `AdditionalRefDict.__getitem__` call: the returned value
(`none` models Python `None`), the updated store, whether a volume was loaded
from storage, and whether a warning was emitted. -/
structure RefGetResult where
  result : Option Volume
  store : RefStore
  loaded : Bool
  warned : Bool

/-- `AdditionalRefDict.__getitem__`: return the cached entry if present;
otherwise warn and return `None` for names outside the allow-list, else load
the volume from storage (modelled by `load`), cache it and return it. -/
def refstore_getitem (load : String → Volume) (s : RefStore) (ref_name : String) :
    RefGetResult :=
  match s.data.find? (fun p => p.1 == ref_name) with
  | some p => ⟨some p.2, s, false, false⟩
  | none =>
    if ref_name ∈ s.references_list then
      let v := load ref_name
      ⟨some v, ⟨s.references_list, s.data ++ [(ref_name, v)]⟩, true, false⟩
    else
      ⟨none, s, false, true⟩

/-- The `additional_references` part of `Atlas.__init__`: constructing the
`AdditionalRefDict` reads `metadata["additional_references"]`; on `KeyError`
the `except` branch emits a warning and assigns nothing, so the attribute is
left unset (`none`). The boolean records whether the warning was emitted. -/
def init_additional_references (m : Metadata) : Option RefStore × Bool :=
  match m.additional_references with
  | some l => (some ⟨l, []⟩, false)
  | none => (none, true)


deriving instance DecidableEq for Except

/-- Acronym of the record that an id resolves to (used to state results). -/
def acronymOf (cat : List StructureRecord) (i : Int) : String :=
  ((lookupId cat i).map (fun r => r.acronym)).getD ""

/-- Id of the record that an acronym resolves to (used to state results). -/
def idOfAcr (cat : List StructureRecord) (a : String) : Int :=
  ((lookupAcr cat a).map (fun r => r.id)).getD 0

/-- The per-key test performed by the descendants loop, as a pure function. -/
def descTest (cat : List StructureRecord) (acr : String) (k : Int) : Option String :=
  match lookupId cat k with
  | some r =>
    if acr ∈ r.structure_id_path.dropLast.map (acronymOf cat) then some r.acronym else none
  | none => none

/-- Every id referenced as a non-final element of some record's path is the id
of a record of the catalog. -/
abbrev ClosedCatalog (cat : List StructureRecord) : Prop :=
  ∀ r ∈ cat, ∀ i ∈ r.structure_id_path.dropLast, ∃ q ∈ cat, q.id = i

/-- Concrete structure records used by the executable examples below. -/
def recA : StructureRecord := ⟨7, "A", "regA", [7]⟩

def recB : StructureRecord := ⟨8, "B", "regB", [7, 8]⟩

def recC : StructureRecord := ⟨9, "C", "regC", [7, 8, 9]⟩

def catW : List StructureRecord := [recA, recB, recC]

/-- A small concrete atlas: annotation values 0, 7, 9, 99 along the last axis,
a uint8 hemispheres file whose voxel (0,0,0) is unlabeled (0), left (1) at
index 1 and right (2) elsewhere. -/
def atlasW : Atlas :=
  { structures_list := catW
    annot := ⟨(1, 1, 4), fun v => if v = (0, 0, 0) then 0 else if v = (0, 0, 1) then 7
        else if v = (0, 0, 2) then 9 else 99⟩
    hemispheres_file := ⟨(1, 1, 4), fun v => if v = (0, 0, 0) then 0
        else if v.2.2 < 2 then 1 else 2⟩
    hemispheres_file_dtype := ⟨8, false⟩
    shape := (1, 1, 4)
    resolution := (2, 25, 10)
    symmetric := false
    front_ax_idx := ⟨2, by decide⟩ }

/-- The same concrete atlas with the hemispheres file in a signed 16-bit
dtype instead of uint8. -/
def atlasInt16 : Atlas := { atlasW with hemispheres_file_dtype := ⟨16, true⟩ }

/-- A concrete symmetric atlas with shape (10, 8, 6) and frontal axis 0. -/
def atlasSym : Atlas :=
  { structures_list := catW
    annot := ⟨(10, 8, 6), fun _ => 0⟩
    hemispheres_file := ⟨(10, 8, 6), fun _ => 0⟩
    hemispheres_file_dtype := ⟨8, false⟩
    shape := (10, 8, 6)
    resolution := (2, 25, 10)
    symmetric := true
    front_ax_idx := ⟨0, by decide⟩ }

/-- A trivial loader and an empty store with allow-list ["nissl"]. -/
def loadW : String → Volume := fun _ => np_zeros (1, 1, 1)

def storeW : RefStore := ⟨["nissl"], []⟩


/-- Reduction of an Except bind on a success value. -/
theorem except_bind_ok {eps alpha beta : Type} (a : alpha) (f : alpha → Except eps beta) :
    (Except.ok a >>= f) = f a := rfl

/-- Reduction of an Except bind on an error value. -/
theorem except_bind_error {eps alpha beta : Type} (e : eps) (f : alpha → Except eps beta) :
    ((Except.error e : Except eps alpha) >>= f) = Except.error e := rfl

/-- Reduction of Except.map on a success value. -/
theorem except_map_ok {eps alpha beta : Type} (g : alpha → beta) (a : alpha) :
    Except.map g (Except.ok a : Except eps alpha) = Except.ok (g a) := rfl

/-- Reduction of Except.map on an error value. -/
theorem except_map_error {eps alpha beta : Type} (g : alpha → beta) (e : eps) :
    Except.map g (Except.error e : Except eps alpha) = Except.error e := rfl

/-- With duplicate-free ids, looking up a member record's id finds that record. -/
theorem lookupId_eq_of_mem (cat : List StructureRecord) (r : StructureRecord)
    (hid : (cat.map StructureRecord.id).Nodup) (hr : r ∈ cat) :
    lookupId cat r.id = some r := by
  induction cat with
  | nil => cases hr
  | cons c rest ih =>
    rcases List.mem_cons.mp hr with h | h
    · subst h; simp [lookupId]
    · rw [List.map_cons, List.nodup_cons] at hid
      have hne : ¬(c.id == r.id) = true := by
        simp only [beq_iff_eq]
        intro hcr
        exact hid.1 (hcr ▸ List.mem_map.mpr ⟨r, h, rfl⟩)
      rw [lookupId, List.find?_cons_of_neg (p := fun x => x.id == r.id) rest hne]
      exact ih hid.2 h

/-- With duplicate-free acronyms, looking up a member record's acronym finds that record. -/
theorem lookupAcr_eq_of_mem (cat : List StructureRecord) (r : StructureRecord)
    (hacr : (cat.map StructureRecord.acronym).Nodup) (hr : r ∈ cat) :
    lookupAcr cat r.acronym = some r := by
  induction cat with
  | nil => cases hr
  | cons c rest ih =>
    rcases List.mem_cons.mp hr with h | h
    · subst h; simp [lookupAcr]
    · rw [List.map_cons, List.nodup_cons] at hacr
      have hne : ¬(c.acronym == r.acronym) = true := by
        simp only [beq_iff_eq]
        intro hcr
        exact hacr.1 (hcr ▸ List.mem_map.mpr ⟨r, h, rfl⟩)
      rw [lookupAcr, List.find?_cons_of_neg (p := fun x => x.acronym == r.acronym) rest hne]
      exact ih hacr.2 h

/-- A successful id lookup returns a member record carrying that id. -/
theorem lookupId_some_spec {cat : List StructureRecord} {i : Int} {r : StructureRecord}
    (h : lookupId cat i = some r) : r ∈ cat ∧ r.id = i :=
  ⟨List.mem_of_find?_eq_some h, by have := List.find?_some h; simpa using this⟩

/-- A successful acronym lookup returns a member record carrying that acronym. -/
theorem lookupAcr_some_spec {cat : List StructureRecord} {a : String} {r : StructureRecord}
    (h : lookupAcr cat a = some r) : r ∈ cat ∧ r.acronym = a :=
  ⟨List.mem_of_find?_eq_some h, by have := List.find?_some h; simpa using this⟩

/-- An id carried by some member record is found by the id lookup. -/
theorem lookupId_isSome_of_exists {cat : List StructureRecord} {i : Int}
    (h : ∃ q ∈ cat, q.id = i) : (lookupId cat i).isSome := by
  obtain ⟨q, hq, hqi⟩ := h
  exact List.find?_isSome.mpr ⟨q, hq, by simp [hqi]⟩

/-- An acronym carried by some member record is found by the acronym lookup. -/
theorem lookupAcr_isSome_of_exists {cat : List StructureRecord} {a : String}
    (h : ∃ q ∈ cat, q.acronym = a) : (lookupAcr cat a).isSome := by
  obtain ⟨q, hq, hqa⟩ := h
  exact List.find?_isSome.mpr ⟨q, hq, by simp [hqa]⟩

/-- Resolving a list of ids of member records to acronyms succeeds and maps each id to the acronym of the record it resolves to. -/
theorem getAcronyms_ok (cat : List StructureRecord) :
    ∀ ids : List Int, (∀ i ∈ ids, ∃ q ∈ cat, q.id = i) →
      getAcronyms cat ids = .ok (ids.map (acronymOf cat))
  | [], _ => rfl
  | i :: rest, h => by
    obtain ⟨r, hr⟩ := Option.isSome_iff_exists.mp
      (lookupId_isSome_of_exists (h i (List.mem_cons_self i rest)))
    have hrec := getAcronyms_ok cat rest (fun j hj => h j (List.mem_cons_of_mem _ hj))
    simp [getAcronyms, getAcronym, getStructure, hr, hrec, acronymOf, except_map_ok, except_bind_ok]

/-- For a member record whose ancestor ids are all valid, the ancestors query returns the acronyms of its path minus the final element, in order. -/
theorem get_structure_ancestors_ok (cat : List StructureRecord) (r : StructureRecord)
    (hid : (cat.map StructureRecord.id).Nodup) (hr : r ∈ cat)
    (hcl : ∀ i ∈ r.structure_id_path.dropLast, ∃ q ∈ cat, q.id = i) :
    get_structure_ancestors cat (.id r.id) =
      .ok (r.structure_id_path.dropLast.map (acronymOf cat)) := by
  have h1 : lookupId cat r.id = some r := lookupId_eq_of_mem cat r hid hr
  simp [get_structure_ancestors, getPath, getStructure, h1, except_map_ok, except_bind_ok,
    getAcronyms_ok cat _ hcl]

/-- Over keys of member records in a closed catalog, the descendants loop succeeds and returns exactly the keys passing the ancestor test, as acronyms. -/
theorem descendantsLoop_ok (cat : List StructureRecord) (acr : String)
    (hid : (cat.map StructureRecord.id).Nodup) (hcl : ClosedCatalog cat) :
    ∀ ks : List Int, (∀ k ∈ ks, ∃ q ∈ cat, q.id = k) →
      descendantsLoop cat acr ks = .ok (ks.filterMap (descTest cat acr))
  | [], _ => rfl
  | k :: rest, h => by
    obtain ⟨r, hr⟩ := Option.isSome_iff_exists.mp
      (lookupId_isSome_of_exists (h k (List.mem_cons_self k rest)))
    obtain ⟨hrmem, hrid⟩ := lookupId_some_spec hr
    have hanc : get_structure_ancestors cat (.id k) =
        .ok (r.structure_id_path.dropLast.map (acronymOf cat)) := by
      rw [← hrid]
      exact get_structure_ancestors_ok cat r hid hrmem (hcl r hrmem)
    have hga : getAcronym cat (.id k) = .ok r.acronym := by
      simp only [getAcronym, getStructure, hr, except_map_ok]
    have hrec := descendantsLoop_ok cat acr hid hcl rest
      (fun j hj => h j (List.mem_cons_of_mem _ hj))
    have hunfold : descendantsLoop cat acr (k :: rest) = (do
        let anc ← get_structure_ancestors cat (.id k)
        if acr ∈ anc then do
          let a ← getAcronym cat (.id k)
          let ds ← descendantsLoop cat acr rest
          pure (a :: ds)
        else descendantsLoop cat acr rest) := rfl
    have hdt : descTest cat acr k =
        if acr ∈ r.structure_id_path.dropLast.map (acronymOf cat) then some r.acronym
        else none := by
      simp only [descTest, hr]
    rw [hunfold, hanc, except_bind_ok, List.filterMap_cons, hdt]
    by_cases hmem : acr ∈ r.structure_id_path.dropLast.map (acronymOf cat)
    · rw [if_pos hmem, if_pos hmem, hga, except_bind_ok, hrec, except_bind_ok]
      rfl
    · rw [if_neg hmem, if_neg hmem, hrec]

/-- In a closed catalog with unique ids, the descendants query for a member record succeeds, returning the acronyms of all records whose ancestor list contains the record's acronym. -/
theorem get_structure_descendants_ok (cat : List StructureRecord) (P : StructureRecord)
    (hid : (cat.map StructureRecord.id).Nodup) (hP : P ∈ cat) (hcl : ClosedCatalog cat) :
    get_structure_descendants cat (.id P.id) =
      .ok ((structureKeys cat).filterMap (descTest cat P.acronym)) := by
  have h1 : lookupId cat P.id = some P := lookupId_eq_of_mem cat P hid hP
  have hkeys : ∀ k ∈ structureKeys cat, ∃ q ∈ cat, q.id = k := by
    intro k hk
    obtain ⟨q, hq, hqk⟩ := List.mem_map.mp hk
    exact ⟨q, hq, hqk⟩
  have hga : getAcronym cat (.id P.id) = .ok P.acronym := by
    simp only [getAcronym, getStructure, h1, except_map_ok]
  have hunfold : get_structure_descendants cat (.id P.id) = (do
      let acr ← getAcronym cat (.id P.id)
      descendantsLoop cat acr (structureKeys cat)) := rfl
  rw [hunfold, hga, except_bind_ok, descendantsLoop_ok cat P.acronym hid hcl _ hkeys]

/-- Resolving a list of acronyms of member records to ids succeeds. -/
theorem getIds_ok (cat : List StructureRecord) :
    ∀ l : List String, (∀ a ∈ l, ∃ q ∈ cat, q.acronym = a) →
      getIds cat l = .ok (l.map (idOfAcr cat))
  | [], _ => rfl
  | a :: rest, h => by
    obtain ⟨r, hr⟩ := Option.isSome_iff_exists.mp
      (lookupAcr_isSome_of_exists (h a (List.mem_cons_self a rest)))
    have hrec := getIds_ok cat rest (fun j hj => h j (List.mem_cons_of_mem _ hj))
    simp only [getIds, getStructure, hr, except_bind_ok, hrec, List.map_cons, idOfAcr,
      Option.map_some, Option.getD_some]
    rfl

/-- Every acronym returned by the descendants scan belongs to some catalog record. -/
theorem descTest_mem_acr {cat : List StructureRecord} {acr x : String} {l : List Int}
    (h : x ∈ l.filterMap (descTest cat acr)) : ∃ r ∈ cat, r.acronym = x := by
  obtain ⟨k, _, hdt⟩ := List.mem_filterMap.mp h
  cases hlk : lookupId cat k with
  | none =>
    simp only [descTest, hlk] at hdt
    cases hdt
  | some r =>
    obtain ⟨hrmem, _⟩ := lookupId_some_spec hlk
    simp only [descTest, hlk] at hdt
    by_cases hm : acr ∈ r.structure_id_path.dropLast.map (acronymOf cat)
    · rw [if_pos hm, Option.some.injEq] at hdt
      exact ⟨r, hrmem, hdt⟩
    · rw [if_neg hm] at hdt
      cases hdt

/-- A member structure's acronym is returned by the descendants scan for P exactly when P's acronym appears among its ancestor acronyms. -/
theorem mem_descendants_iff (cat : List StructureRecord) (S P : StructureRecord)
    (hid : (cat.map StructureRecord.id).Nodup)
    (hacr : (cat.map StructureRecord.acronym).Nodup) (hS : S ∈ cat) :
    S.acronym ∈ (structureKeys cat).filterMap (descTest cat P.acronym) ↔
      P.acronym ∈ S.structure_id_path.dropLast.map (acronymOf cat) := by
  constructor
  · intro h
    obtain ⟨k, _, hdt⟩ := List.mem_filterMap.mp h
    cases hlk : lookupId cat k with
    | none =>
      simp only [descTest, hlk] at hdt
      cases hdt
    | some r =>
      obtain ⟨hrmem, _⟩ := lookupId_some_spec hlk
      simp only [descTest, hlk] at hdt
      by_cases hm : P.acronym ∈ r.structure_id_path.dropLast.map (acronymOf cat)
      · rw [if_pos hm, Option.some.injEq] at hdt
        have hrS : r = S := List.inj_on_of_nodup_map hacr hrmem hS hdt
        exact hrS ▸ hm
      · rw [if_neg hm] at hdt
        cases hdt
  · intro h
    refine List.mem_filterMap.mpr ⟨S.id, List.mem_map.mpr ⟨S, hS, rfl⟩, ?_⟩
    simp only [descTest, lookupId_eq_of_mem cat S hid hS, if_pos h]

/-- The full evaluation of get_structure_mask for a valid structure key in a closed catalog with unique ids: descendant collection succeeds and the result is determined by the hemisphere argument. -/
theorem get_structure_mask_eq (a : Atlas) (S : StructureRecord)
    (hS : S ∈ a.structures_list)
    (hid : (a.structures_list.map StructureRecord.id).Nodup)
    (hcl : ClosedCatalog a.structures_list) :
    ∃ ds dids,
      get_structure_descendants a.structures_list (.id S.id) = .ok ds ∧
      getIds a.structures_list ds = .ok dids ∧
      ∀ hemi : Int, a.get_structure_mask (.id S.id) hemi =
        (if hemi = 0 then
          .ok (mask_assign (np_zeros a.shape) (np_isin a.annot (dids ++ [S.id])) S.id)
        else if hemi = -1 then
          .ok (mask_assign
            (mask_assign (np_zeros a.shape) (np_isin a.annot (dids ++ [S.id])) S.id)
            (fun v => a.hemispheres.data v == RIGHT_HEMI_VAL) 0)
        else if hemi = 1 then
          .ok (mask_assign
            (mask_assign (np_zeros a.shape) (np_isin a.annot (dids ++ [S.id])) S.id)
            (fun v => a.hemispheres.data v == LEFT_HEMI_VAL) 0)
        else .error .valueError) := by
  have h1 : getStructure a.structures_list (.id S.id) = .ok S := by
    simp only [getStructure, lookupId_eq_of_mem _ S hid hS]
  have h2 := get_structure_descendants_ok a.structures_list S hid hS hcl
  have h3 := getIds_ok a.structures_list
    ((structureKeys a.structures_list).filterMap (descTest a.structures_list S.acronym))
    (fun x hx => descTest_mem_acr hx)
  refine ⟨_, _, h2, h3, fun hemi => ?_⟩
  have hunfold : a.get_structure_mask (.id S.id) hemi = (do
      let s ← getStructure a.structures_list (.id S.id)
      let descendants ← get_structure_descendants a.structures_list (.id S.id)
      let descendant_ids ← getIds a.structures_list descendants
      let mask_stack :=
        mask_assign (np_zeros a.shape) (np_isin a.annot (descendant_ids ++ [s.id])) s.id
      if hemi = 0 then
        pure mask_stack
      else if hemi = -1 then
        pure (mask_assign mask_stack (fun v => a.hemispheres.data v == RIGHT_HEMI_VAL) 0)
      else if hemi = 1 then
        pure (mask_assign mask_stack (fun v => a.hemispheres.data v == LEFT_HEMI_VAL) 0)
      else
        .error .valueError) := rfl
  rw [hunfold, h1, except_bind_ok, h2, except_bind_ok, h3, except_bind_ok]
  rfl

/-- Claim C4: for every pair of structures S and P in the catalog, S's acronym is a member of get_structure_descendants(P) if and only if P's acronym is a member of get_structure_ancestors(S). (Stated for catalogs with unique ids and acronyms whose ancestor paths resolve, as the catalog construction guarantees.) -/
theorem C4_duality (cat : List StructureRecord) (S P : StructureRecord)
    (hS : S ∈ cat) (hP : P ∈ cat)
    (hid : (cat.map StructureRecord.id).Nodup)
    (hacr : (cat.map StructureRecord.acronym).Nodup)
    (hcl : ClosedCatalog cat) :
    ∃ ds as,
      get_structure_descendants cat (.id P.id) = .ok ds ∧
      get_structure_ancestors cat (.id S.id) = .ok as ∧
      (S.acronym ∈ ds ↔ P.acronym ∈ as) :=
  ⟨_, _, get_structure_descendants_ok cat P hid hP hcl,
    get_structure_ancestors_ok cat S hid hS (hcl S hS),
    mem_descendants_iff cat S P hid hacr hS⟩

/-- Witness for C4 on the concrete three-record catalog: C is a descendant of A exactly as A is an ancestor of C. -/
theorem C4_witness : ∃ ds as,
    get_structure_descendants catW (.id 7) = .ok ds ∧
    get_structure_ancestors catW (.id 9) = .ok as ∧
    ("C" ∈ ds ↔ "A" ∈ as) := by
  have h := C4_duality catW recC recA (by decide) (by decide) (by decide) (by decide)
    (by decide)
  simpa [recA, recC] using h

/-- Pointwise value of the mask stack before hemisphere filtering. -/
theorem mask_pointwise (a : Atlas) (sid : Int) (dids : List Int) :
    ∀ v, (mask_assign (np_zeros a.shape) (np_isin a.annot (dids ++ [sid])) sid).data v
      = if a.annot.data v = sid ∨ a.annot.data v ∈ dids then sid else 0 := by
  intro v
  simp only [mask_assign, np_isin, np_zeros]
  by_cases hx : a.annot.data v = sid ∨ a.annot.data v ∈ dids
  · have hmem : a.annot.data v ∈ dids ++ [sid] := by
      rcases hx with hx | hx
      · exact List.mem_append.mpr (Or.inr (by simp [hx]))
      · exact List.mem_append.mpr (Or.inl hx)
    rw [if_pos (by simpa using hmem), if_pos hx]
  · have hmem : a.annot.data v ∉ dids ++ [sid] := by
      intro hc
      rcases List.mem_append.mp hc with hc | hc
      · exact hx (Or.inr hc)
      · exact hx (Or.inl (by simpa using hc))
    rw [if_neg (by simpa using hmem), if_neg hx]

/-- Claim C1: for a valid structure key S, get_structure_mask with hemisphere 0 returns a volume of the atlas shape holding S's id exactly where the annotation value is S's id or a descendant id and 0 elsewhere; hemisphere -1 additionally zeroes voxels whose hemisphere value is RIGHT (2), and hemisphere 1 zeroes voxels whose hemisphere value is LEFT (1). -/
theorem C1_structure_mask (a : Atlas) (S : StructureRecord)
    (hS : S ∈ a.structures_list)
    (hid : (a.structures_list.map StructureRecord.id).Nodup)
    (hcl : ClosedCatalog a.structures_list) :
    ∃ ds dids,
      get_structure_descendants a.structures_list (.id S.id) = .ok ds ∧
      getIds a.structures_list ds = .ok dids ∧
      (∃ m, a.get_structure_mask (.id S.id) 0 = .ok m ∧ m.shape = a.shape ∧
        ∀ v, m.data v =
          if a.annot.data v = S.id ∨ a.annot.data v ∈ dids then S.id else 0) ∧
      (∃ m, a.get_structure_mask (.id S.id) (-1) = .ok m ∧ m.shape = a.shape ∧
        ∀ v, m.data v =
          if a.hemispheres.data v = RIGHT_HEMI_VAL then 0
          else if a.annot.data v = S.id ∨ a.annot.data v ∈ dids then S.id else 0) ∧
      (∃ m, a.get_structure_mask (.id S.id) 1 = .ok m ∧ m.shape = a.shape ∧
        ∀ v, m.data v =
          if a.hemispheres.data v = LEFT_HEMI_VAL then 0
          else if a.annot.data v = S.id ∨ a.annot.data v ∈ dids then S.id else 0) := by
  obtain ⟨ds, dids, h2, h3, hmask⟩ := get_structure_mask_eq a S hS hid hcl
  have e0 : a.get_structure_mask (.id S.id) 0 =
      .ok (mask_assign (np_zeros a.shape) (np_isin a.annot (dids ++ [S.id])) S.id) := by
    rw [hmask 0]; norm_num
  have e1 : a.get_structure_mask (.id S.id) (-1) =
      .ok (mask_assign (mask_assign (np_zeros a.shape) (np_isin a.annot (dids ++ [S.id])) S.id)
        (fun v => a.hemispheres.data v == RIGHT_HEMI_VAL) 0) := by
    rw [hmask (-1)]; norm_num
  have e2 : a.get_structure_mask (.id S.id) 1 =
      .ok (mask_assign (mask_assign (np_zeros a.shape) (np_isin a.annot (dids ++ [S.id])) S.id)
        (fun v => a.hemispheres.data v == LEFT_HEMI_VAL) 0) := by
    rw [hmask 1]; norm_num
  have hpt := mask_pointwise a S.id dids
  refine ⟨ds, dids, h2, h3, ⟨_, e0, rfl, hpt⟩, ⟨_, e1, rfl, fun v => ?_⟩,
    ⟨_, e2, rfl, fun v => ?_⟩⟩
  · simp only [mask_assign]
    by_cases hh : a.hemispheres.data v = RIGHT_HEMI_VAL
    · rw [if_pos (by simpa using hh), if_pos hh]
    · rw [if_neg (by simpa using hh), if_neg hh]
      exact hpt v
  · simp only [mask_assign]
    by_cases hh : a.hemispheres.data v = LEFT_HEMI_VAL
    · rw [if_pos (by simpa using hh), if_pos hh]
    · rw [if_neg (by simpa using hh), if_neg hh]
      exact hpt v

/-- Claim C6: for a valid structure key, get_structure_mask raises ValueError exactly for hemisphere arguments outside -1, 0, 1, and returns a mask for the three legal values. -/
theorem C6_hemisphere_filter (a : Atlas) (S : StructureRecord)
    (hS : S ∈ a.structures_list)
    (hid : (a.structures_list.map StructureRecord.id).Nodup)
    (hcl : ClosedCatalog a.structures_list) (hemi : Int) :
    (hemi ≠ -1 ∧ hemi ≠ 0 ∧ hemi ≠ 1 →
      a.get_structure_mask (.id S.id) hemi = .error .valueError) ∧
    (hemi = -1 ∨ hemi = 0 ∨ hemi = 1 →
      ∃ m, a.get_structure_mask (.id S.id) hemi = .ok m) := by
  obtain ⟨ds, dids, _, _, hmask⟩ := get_structure_mask_eq a S hS hid hcl
  have e0 : a.get_structure_mask (.id S.id) 0 =
      .ok (mask_assign (np_zeros a.shape) (np_isin a.annot (dids ++ [S.id])) S.id) := by
    rw [hmask 0]; norm_num
  have e1 : a.get_structure_mask (.id S.id) (-1) =
      .ok (mask_assign (mask_assign (np_zeros a.shape) (np_isin a.annot (dids ++ [S.id])) S.id)
        (fun v => a.hemispheres.data v == RIGHT_HEMI_VAL) 0) := by
    rw [hmask (-1)]; norm_num
  have e2 : a.get_structure_mask (.id S.id) 1 =
      .ok (mask_assign (mask_assign (np_zeros a.shape) (np_isin a.annot (dids ++ [S.id])) S.id)
        (fun v => a.hemispheres.data v == LEFT_HEMI_VAL) 0) := by
    rw [hmask 1]; norm_num
  constructor
  · rintro ⟨h1, h2, h3⟩
    rw [hmask hemi, if_neg h2, if_neg h1, if_neg h3]
  · rintro (h | h | h) <;> subst h
    · exact ⟨_, e1⟩
    · exact ⟨_, e0⟩
    · exact ⟨_, e2⟩

/-- Witness for C1 on the concrete atlas and structure id 7. -/
theorem C1_witness : ∃ ds dids,
    get_structure_descendants atlasW.structures_list (.id recA.id) = .ok ds ∧
    getIds atlasW.structures_list ds = .ok dids ∧
    (∃ m, atlasW.get_structure_mask (.id recA.id) 0 = .ok m ∧ m.shape = atlasW.shape ∧
      ∀ v, m.data v =
        if atlasW.annot.data v = recA.id ∨ atlasW.annot.data v ∈ dids then recA.id else 0) ∧
    (∃ m, atlasW.get_structure_mask (.id recA.id) (-1) = .ok m ∧ m.shape = atlasW.shape ∧
      ∀ v, m.data v =
        if atlasW.hemispheres.data v = RIGHT_HEMI_VAL then 0
        else if atlasW.annot.data v = recA.id ∨ atlasW.annot.data v ∈ dids then recA.id
        else 0) ∧
    (∃ m, atlasW.get_structure_mask (.id recA.id) 1 = .ok m ∧ m.shape = atlasW.shape ∧
      ∀ v, m.data v =
        if atlasW.hemispheres.data v = LEFT_HEMI_VAL then 0
        else if atlasW.annot.data v = recA.id ∨ atlasW.annot.data v ∈ dids then recA.id
        else 0) := by
  exact C1_structure_mask atlasW recA (by decide) (by decide) (by decide)

/-- Witness for C6: hemisphere argument 5 raises ValueError and 0 succeeds on the concrete atlas. -/
theorem C6_witness :
    atlasW.get_structure_mask (.id recA.id) 5 = .error .valueError ∧
    (∃ m, atlasW.get_structure_mask (.id recA.id) 0 = .ok m) := by
  constructor
  · exact (C6_hemisphere_filter atlasW recA (by decide) (by decide) (by decide) 5).1
      (by norm_num)
  · exact (C6_hemisphere_filter atlasW recA (by decide) (by decide) (by decide) 0).2
      (by norm_num)

/-- Python int() truncation is the identity on integer-valued inputs. -/
theorem pyInt_intCast (n : ℤ) : pyInt (n : ℚ) = n := by
  rw [pyInt]
  rcases le_or_lt 0 ((n : ℚ)) with h | h
  · rw [if_pos h, Int.floor_intCast]
  · rw [if_neg (not_le.mpr h), Int.ceil_intCast]

/-- Python int() of 0.0 is 0. -/
theorem pyInt_zero : pyInt 0 = 0 := by
  have h := pyInt_intCast 0
  norm_num at h
  exact h

/-- Python int() of -1.0 is -1. -/
theorem pyInt_neg_one : pyInt (-1) = -1 := by
  have h := pyInt_intCast (-1)
  norm_num at h
  exact h

/-- Python int() truncation is the identity on natural-number inputs. -/
theorem pyInt_natCast (n : ℕ) : pyInt (n : ℚ) = n := by
  have h := pyInt_intCast (n : ℤ)
  rw [Int.cast_natCast] at h
  exact h

/-- Python int() truncates 2.9 to 2. -/
theorem pyInt_29_10 : pyInt (29 / 10) = 2 := by
  rw [pyInt, if_pos (by norm_num)]
  rw [Int.floor_eq_iff]
  constructor <;> norm_num

/-- Claim C3: when the metadata says symmetric, the hemispheres volume has the atlas shape, holds 1 (LEFT) exactly at voxels whose frontal-axis index is at least shape[frontal] // 2 + 1 and 2 (RIGHT) at all other voxels. -/
theorem C3_symmetric_hemispheres (a : Atlas) (hsym : a.symmetric = true) :
    a.hemispheres.shape = a.shape ∧
    ∀ v, (a.hemispheres.data v = 1 ↔
        axisOf a.shape a.front_ax_idx / 2 + 1 ≤ axisOf v a.front_ax_idx) ∧
      (a.hemispheres.data v = 2 ↔
        axisOf v a.front_ax_idx < axisOf a.shape a.front_ax_idx / 2 + 1) := by
  constructor
  · simp [Atlas.hemispheres, hsym, hemispheres_symmetric, slice_assign_from, np_full]
  · intro v
    simp only [Atlas.hemispheres, hsym, if_true, hemispheres_symmetric, slice_assign_from,
      np_full]
    by_cases h : axisOf a.shape a.front_ax_idx / 2 + 1 ≤ axisOf v a.front_ax_idx
    · rw [if_pos h]
      exact ⟨iff_of_true rfl h, iff_of_false (by decide) (by omega)⟩
    · rw [if_neg h]
      exact ⟨iff_of_false (by decide) h, iff_of_true rfl (by omega)⟩

/-- Witness for C3 on a symmetric atlas of shape (10, 8, 6) with frontal axis 0, where the split index is 6. -/
theorem C3_witness :
    atlasSym.hemispheres.shape = atlasSym.shape ∧
    ∀ v, (atlasSym.hemispheres.data v = 1 ↔
        axisOf atlasSym.shape atlasSym.front_ax_idx / 2 + 1 ≤ axisOf v atlasSym.front_ax_idx) ∧
      (atlasSym.hemispheres.data v = 2 ↔
        axisOf v atlasSym.front_ax_idx < axisOf atlasSym.shape atlasSym.front_ax_idx / 2 + 1) := by
  exact C3_symmetric_hemispheres atlasSym rfl

/-- Claim C7: voxel_index divides by the per-axis resolution when in_microns and truncates toward zero, so integer voxel coordinates scaled by a positive resolution round-trip exactly, and (2.9, 0, 0) without microns truncates to (2, 0, 0). -/
theorem C7_voxel_index (a : Atlas) (x y z : ℕ)
    (h1 : 0 < a.resolution.1) (h2 : 0 < a.resolution.2.1) (h3 : 0 < a.resolution.2.2) :
    a.idx_from_coords (x * a.resolution.1, y * a.resolution.2.1, z * a.resolution.2.2) true
      = ((x : Int), (y : Int), (z : Int)) ∧
    a.idx_from_coords (29 / 10, 0, 0) false = (2, 0, 0) := by
  constructor
  · simp only [Atlas.idx_from_coords, if_true]
    rw [mul_div_cancel_right₀ _ (ne_of_gt h1), mul_div_cancel_right₀ _ (ne_of_gt h2),
      mul_div_cancel_right₀ _ (ne_of_gt h3)]
    rw [pyInt_natCast, pyInt_natCast, pyInt_natCast]
  · show (pyInt (29 / 10 : ℚ), pyInt (0 : ℚ), pyInt (0 : ℚ)) = (2, 0, 0)
    rw [pyInt_29_10, pyInt_zero]

/-- Witness for C7 at voxel (3, 4, 5) and resolution (2, 25, 10). -/
theorem C7_witness :
    atlasW.idx_from_coords (3 * atlasW.resolution.1, 4 * atlasW.resolution.2.1,
      5 * atlasW.resolution.2.2) true = (3, 4, 5) ∧
    atlasW.idx_from_coords (29 / 10, 0, 0) false = (2, 0, 0) := by
  exact C7_voxel_index atlasW 3 4 5 (by norm_num [atlasW]) (by norm_num [atlasW])
    (by norm_num [atlasW])

/-- Numpy volume indexing succeeds and wraps the index when every component is within the wrap range. -/
theorem npGet_ok (vol : Volume) (idx : Int × Int × Int)
    (hin : (inRangeAx vol.shape.1 idx.1 && inRangeAx vol.shape.2.1 idx.2.1 &&
      inRangeAx vol.shape.2.2 idx.2.2) = true) :
    npGet vol idx = .ok (vol.data (wrapIdx vol.shape idx)) := by
  simp only [npGet]
  rw [if_pos hin]

/-- Claim C9: voxel_index performs no bounds or sign validation, so a coordinate at most -1 yields a negative index, and both hemisphere_from_coords and structure_from_coords index their volumes with that unchecked index, returning the voxel at the wrapped position instead of rejecting the coordinate. -/
theorem C9_no_validation (a : Atlas) (c1 c2 c3 : ℚ) (label : String)
    (hneg : c1 ≤ -1)
    (hinH : (inRangeAx a.hemispheres.shape.1 (a.idx_from_coords (c1, c2, c3) false).1 &&
        inRangeAx a.hemispheres.shape.2.1 (a.idx_from_coords (c1, c2, c3) false).2.1 &&
        inRangeAx a.hemispheres.shape.2.2 (a.idx_from_coords (c1, c2, c3) false).2.2) = true)
    (hinA : (inRangeAx a.annot.shape.1 (a.idx_from_coords (c1, c2, c3) false).1 &&
        inRangeAx a.annot.shape.2.1 (a.idx_from_coords (c1, c2, c3) false).2.1 &&
        inRangeAx a.annot.shape.2.2 (a.idx_from_coords (c1, c2, c3) false).2.2) = true) :
    (a.idx_from_coords (c1, c2, c3) false).1 < 0 ∧
    a.hemisphere_from_coords (c1, c2, c3) false false =
      .ok (.inl (a.hemispheres.data
        (wrapIdx a.hemispheres.shape (a.idx_from_coords (c1, c2, c3) false)))) ∧
    a.structure_from_coords (c1, c2, c3) false false none label =
      .ok (.inl (a.annot.data
        (wrapIdx a.annot.shape (a.idx_from_coords (c1, c2, c3) false)))) := by
  refine ⟨?_, ?_, ?_⟩
  · show pyInt c1 < 0
    have h0 : ¬ (0 : ℚ) ≤ c1 := by linarith
    rw [pyInt, if_neg h0]
    have hc : ⌈c1⌉ ≤ ⌈(-1 : ℚ)⌉ := Int.ceil_mono hneg
    rw [show ((-1 : ℚ)) = ((-1 : ℤ) : ℚ) by norm_num, Int.ceil_intCast] at hc
    omega
  · simp only [Atlas.hemisphere_from_coords]
    rw [npGet_ok _ _ hinH, except_bind_ok]
    rfl
  · simp only [Atlas.structure_from_coords]
    rw [npGet_ok _ _ hinA, except_bind_ok]
    rfl

/-- Witness for C9 at coordinates (-1, 0, 0) on the concrete atlas. -/
theorem C9_witness :
    (atlasW.idx_from_coords (-1, 0, 0) false).1 < 0 ∧
    atlasW.hemisphere_from_coords (-1, 0, 0) false false =
      .ok (.inl (atlasW.hemispheres.data
        (wrapIdx atlasW.hemispheres.shape (atlasW.idx_from_coords (-1, 0, 0) false)))) ∧
    atlasW.structure_from_coords (-1, 0, 0) false false none "Outside atlas" =
      .ok (.inl (atlasW.annot.data
        (wrapIdx atlasW.annot.shape (atlasW.idx_from_coords (-1, 0, 0) false)))) := by
  have hidx : atlasW.idx_from_coords (-1, 0, 0) false = (-1, 0, 0) := by
    simp [Atlas.idx_from_coords, pyInt_neg_one, pyInt_zero]
  exact C9_no_validation atlasW (-1) 0 0 "Outside atlas" (by norm_num)
    (by rw [hidx]; decide) (by rw [hidx]; decide)

/-- Claim C10 (amended): for a voxel whose hemisphere-volume value is 0,
hemisphere_from_coords with as_string indexes the two-label list at the numpy
scalar result of value - 1, which wraps in the volume dtype: for an unsigned
uint8 hemisphere volume (the dtype core.py itself synthesizes) 0 - 1 wraps to
255 and the call raises IndexError rather than returning a string; only for a
signed-dtype hemisphere volume does 0 - 1 give -1, wrap to the last list
element and return the string right. -/
theorem C10_unlabeled_hemisphere (a : Atlas) (c : ℚ × ℚ × ℚ)
    (h : npGet a.hemispheres (a.idx_from_coords c false) = .ok 0) :
    (a.hemispheres_dtype = ⟨8, false⟩ →
      a.hemisphere_from_coords c false true = .error .indexError) ∧
    (a.hemispheres_dtype.signed = true →
      a.hemisphere_from_coords c false true = .ok (.inr "right")) := by
  constructor
  · intro hdt
    simp only [Atlas.hemisphere_from_coords]
    rw [h, except_bind_ok, hdt]
    rfl
  · intro hs
    simp only [Atlas.hemisphere_from_coords]
    rw [h, except_bind_ok]
    have hsub : npSub a.hemispheres_dtype 0 1 = -1 := by
      rw [npSub, if_pos hs]
      have h1 : (1 : Int) ≤ 2 ^ (a.hemispheres_dtype.bits - 1) := by
        calc (1 : Int) = 2 ^ 0 := by norm_num
        _ ≤ 2 ^ (a.hemispheres_dtype.bits - 1) :=
          pow_le_pow_right₀ (by norm_num) (Nat.zero_le _)
      have h2 : (2 : Int) ^ (a.hemispheres_dtype.bits - 1) ≤ 2 ^ a.hemispheres_dtype.bits :=
        pow_le_pow_right₀ (by norm_num) (Nat.sub_le _ _)
      rw [Int.emod_eq_of_lt (by linarith) (by linarith)]
      ring
    rw [hsub]
    rfl

/-- Counterexample to C10 as stated: on the concrete atlas, whose hemispheres
volume is uint8 exactly as core.py synthesizes hemisphere volumes, the voxel
(0, 0, 0) holds hemisphere value 0 and hemisphere_from_coords with as_string
raises IndexError (0 - 1 wraps to 255, out of range for the two-label list)
instead of returning the string right. -/
theorem C10_counterexample :
    atlasW.hemisphere_from_coords (0, 0, 0) false true = .error .indexError ∧
    (Except.error .indexError : Except AtlasError (Sum Int String)) ≠
      .ok (.inr "right") := by
  have hidx : atlasW.idx_from_coords (0, 0, 0) false = (0, 0, 0) := by
    simp [Atlas.idx_from_coords, pyInt_zero]
  constructor
  · simp only [Atlas.hemisphere_from_coords, hidx]
    decide
  · decide

/-- Witness for the amended C10: hemisphere value 0 raises IndexError on the
uint8 atlas and returns the string right on the atlas whose hemispheres file
carries a signed 16-bit dtype. -/
theorem C10_witness :
    atlasW.hemisphere_from_coords (0, 0, 0) false true = .error .indexError ∧
    atlasInt16.hemisphere_from_coords (0, 0, 0) false true = .ok (.inr "right") := by
  have hidx : atlasW.idx_from_coords (0, 0, 0) false = (0, 0, 0) := by
    simp [Atlas.idx_from_coords, pyInt_zero]
  have hidx16 : atlasInt16.idx_from_coords (0, 0, 0) false = (0, 0, 0) := by
    simp [Atlas.idx_from_coords, pyInt_zero]
  constructor
  · exact (C10_unlabeled_hemisphere atlasW (0, 0, 0) (by rw [hidx]; decide)).1 rfl
  · exact (C10_unlabeled_hemisphere atlasInt16 (0, 0, 0) (by rw [hidx16]; decide)).2 rfl

/-- Claim C2 (amended): with as_acronym, an id read from the annotation that is not a known structure yields the configured not-found label when hierarchy_lev is None; but when hierarchy_lev is specified, the substitution lookup happens outside the try block, so the same unknown id raises KeyError instead. -/
theorem C2_amended (a : Atlas) (c : ℚ × ℚ × ℚ) (microns : Bool) (label : String)
    (lev : Int) (rid : Int)
    (hread : npGet a.annot (a.idx_from_coords c microns) = .ok rid)
    (hunk : lookupId a.structures_list rid = none) :
    a.structure_from_coords c microns true none label = .ok (.inr label) ∧
    a.structure_from_coords c microns true (some lev) label = .error .keyError := by
  constructor
  · simp only [Atlas.structure_from_coords]
    rw [hread, except_bind_ok]
    simp [pure, Except.pure, except_bind_ok, getStructure, hunk]
  · simp only [Atlas.structure_from_coords]
    rw [hread, except_bind_ok]
    simp [getStructure, hunk, except_bind_error]

/-- Counterexample to C2 as stated: on the concrete atlas, the voxel (0, 0, 0) has unlabeled annotation 0, and structure_from_coords with as_acronym and hierarchy level 0 raises KeyError rather than returning the not-found label. -/
theorem C2_counterexample :
    atlasW.structure_from_coords (0, 0, 0) false true (some 0) "Outside atlas" =
      .error .keyError ∧
    (Except.error .keyError : Except AtlasError (Sum Int String)) ≠
      .ok (.inr "Outside atlas") := by
  have hidx : atlasW.idx_from_coords (0, 0, 0) false = (0, 0, 0) := by
    simp [Atlas.idx_from_coords, pyInt_zero]
  constructor
  · simp only [Atlas.structure_from_coords, hidx]
    decide
  · decide

/-- Witness for the amended C2 on the concrete atlas: without a hierarchy level the unknown id 0 yields the label, with one it raises. -/
theorem C2_witness :
    atlasW.structure_from_coords (0, 0, 0) false true none "Outside atlas" =
      .ok (.inr "Outside atlas") ∧
    atlasW.structure_from_coords (0, 0, 0) false true (some 0) "Outside atlas" =
      .error .keyError := by
  have hidx : atlasW.idx_from_coords (0, 0, 0) false = (0, 0, 0) := by
    simp [Atlas.idx_from_coords, pyInt_zero]
  exact C2_amended atlasW (0, 0, 0) false "Outside atlas" 0 0 (by rw [hidx]; decide)
    (by decide)

/-- Claim C5 (amended): when the additional_references key is absent, construction emits the warning and succeeds, but the reference-store attribute is left unset (none) rather than holding an empty usable store. -/
theorem C5_amended (m : Metadata) (h : m.additional_references = none) :
    init_additional_references m = (none, true) := by
  simp [init_additional_references, h]

/-- Witness for the amended C5 on metadata without the additional_references key. -/
theorem C5_witness : init_additional_references ⟨none⟩ = (none, true) :=
  C5_amended ⟨none⟩ rfl

/-- Counterexample to C5 as stated: with the key absent the warning is emitted, but no reference store exists at all, in particular no store with an empty allow-list. -/
theorem C5_counterexample :
    (init_additional_references ⟨none⟩).2 = true ∧
    (init_additional_references ⟨none⟩).1 = none ∧
    ¬ ∃ s : RefStore, (init_additional_references ⟨none⟩).1 = some s ∧
        s.references_list = [] := by
  refine ⟨rfl, rfl, ?_⟩
  rintro ⟨s, hs, _⟩
  simp [init_additional_references] at hs

/-- Claim C8: querying the reference store for a name outside the allow-list (and not cached, as holds for every reachable store) warns and returns None without loading anything and without changing the store. -/
theorem C8_unknown_reference (load : String → Volume) (s : RefStore) (ref_name : String)
    (hmiss : ref_name ∉ s.references_list)
    (hcache : ∀ p ∈ s.data, p.1 ∈ s.references_list) :
    (refstore_getitem load s ref_name).result = none ∧
    (refstore_getitem load s ref_name).warned = true ∧
    (refstore_getitem load s ref_name).loaded = false ∧
    (refstore_getitem load s ref_name).store = s := by
  have hfind : s.data.find? (fun p => p.1 == ref_name) = none := by
    rw [List.find?_eq_none]
    intro p hp
    simp only [beq_iff_eq]
    intro hcontra
    exact hmiss (hcontra ▸ hcache p hp)
  simp [refstore_getitem, hfind, if_neg hmiss]

/-- The cache only ever holds allow-listed names: one lookup step preserves this invariant, justifying the cache hypothesis of the claim above. -/
theorem refstore_cache_invariant (load : String → Volume) (s : RefStore) (ref_name : String)
    (hcache : ∀ p ∈ s.data, p.1 ∈ s.references_list) :
    ∀ p ∈ (refstore_getitem load s ref_name).store.data,
      p.1 ∈ (refstore_getitem load s ref_name).store.references_list := by
  intro p hp
  cases hfind : s.data.find? (fun q => q.1 == ref_name) with
  | some q =>
    simp only [refstore_getitem, hfind] at hp ⊢
    exact hcache p hp
  | none =>
    by_cases hmem : ref_name ∈ s.references_list
    · simp only [refstore_getitem, hfind, if_pos hmem] at hp ⊢
      rcases List.mem_append.mp hp with h | h
      · exact hcache p h
      · have hp1 : p = (ref_name, load ref_name) := by simpa using h
        rw [hp1]
        exact hmem
    · simp only [refstore_getitem, hfind, if_neg hmem] at hp ⊢
      exact hcache p hp

/-- Witness for C8: looking up a name missing from the allow-list of a fresh store. -/
theorem C8_witness :
    (refstore_getitem loadW storeW "extra").result = none ∧
    (refstore_getitem loadW storeW "extra").warned = true ∧
    (refstore_getitem loadW storeW "extra").loaded = false ∧
    (refstore_getitem loadW storeW "extra").store = storeW := by
  exact C8_unknown_reference loadW storeW "extra" (by decide) (by simp [storeW])
